import Mathlib

/-!
Verification development for the dictmaker initialization layer
(`cmd/dictmaker/init.go`) and the relation-graph operations described in
the design document.

The Go code is shallowly embedded: external collaborators (the `plugin`
package, `koanf` configuration, `stuffbin` asset filesystems, the OS file
system) are modelled as explicit capability records, and `log.Fatalf`
(which halts the process) is modelled as the `.error` branch of an
`Except` value from which no recovery path exists.
-/

set_option autoImplicit false

namespace Dictmaker

/-- The `data.Tokenizer` contract: a stable identifier `ID()` and a
`ToTokens`-style tokenization function.  Reconstructed from its use in
`init.go` and the spec's Tokenizer contract. -/
structure Tokenizer where
  id : String
  tokenize : String → List String

/-- The configuration fields of `data.Lang` that `koanf` unmarshalling can
populate (the live `Tokenizer` object is not a configuration field; after
unmarshalling it is Go's zero value, i.e. absent). -/
structure ConfLang where
  name : String
  tokenizerName : String
  tokenizerType : String
  types : List (String × String)

/-- The `data.Lang` record as used by `initLangs`: configuration fields plus
the optionally attached live tokenizer object. -/
structure Lang where
  name : String
  tokenizerName : String
  tokenizerType : String
  types : List (String × String)
  tokenizer : Option Tokenizer

/-- `data.Lang{Types: make(map[string]string)}` followed by
`ko.UnmarshalWithConf`: the config fields are filled in and the live
tokenizer field stays nil. -/
def ConfLang.toLang (c : ConfLang) : Lang :=
  { name := c.name, tokenizerName := c.tokenizerName,
    tokenizerType := c.tokenizerType, types := c.types, tokenizer := none }

/-- The `koanf` configuration as consulted by `initLangs`: the keys of the
`lang` section (`ko.MapKeys("lang")`) and the unmarshalling of each
`lang.<key>` subtree (`ko.UnmarshalWithConf`), which may fail. -/
structure KoanfEnv where
  langKeys : List String
  unmarshal : String → Except String ConfLang

/-- A symbol looked up in a Go plugin: either it has the asserted type
`func() (data.Tokenizer, error)` or it is something else (the type
assertion in `loadTokenizerPlugin` fails). -/
inductive Symbol where
  | newFn (f : Unit → Except String Tokenizer)
  | other (desc : String)

/-- Whether the `New` symbol has the asserted type
`func() (data.Tokenizer, error)`. -/
def isNewFn : Symbol → Bool
  | .newFn _ => true
  | .other _ => false

/-- A loaded Go plugin: symbol lookup may fail or return a symbol. -/
structure Plugin where
  lookup : String → Except String Symbol

/-- The Go `plugin` package: `plugin.Open` on a path may fail or return a
plugin handle. -/
structure PluginSys where
  openPlugin : String → Except String Plugin

/-- Embedding of `loadTokenizerPlugin` (`init.go` lines 114-137): open the
plugin, look up `New`, type-assert it, call it, and wrap each failure in
the corresponding error message. -/
def loadTokenizerPlugin (sys : PluginSys) (path : String) :
    Except String Tokenizer :=
  match sys.openPlugin path with
  | .error e => .error ("error loading tokenizer plugin " ++ path ++ ": " ++ e)
  | .ok plg =>
    match plg.lookup "New" with
    | .error e =>
      .error ("New() function not found in plugin " ++ path ++ ": " ++ e)
    | .ok s =>
      match s with
      | .other _ =>
        .error ("New() function is of invalid type in plugin " ++ path)
      | .newFn f =>
        match f () with
        | .error e =>
          .error ("error initializing provider plugin " ++ path ++ ": " ++ e)
        | .ok p => .ok p

/-- Lookup in the association-list model of the Go map
`data.LangMap = map[string]data.Lang`. -/
def mapGet : List (String × Lang) → String → Option Lang
  | [], _ => none
  | p :: ps, k => if p.1 = k then some p.2 else mapGet ps k

/-- Go map assignment `out[l] = lang`: replace an existing binding for the
key, otherwise append a fresh one. -/
def mapSet : List (String × Lang) → String → Lang → List (String × Lang)
  | [], k, v => [(k, v)]
  | p :: ps, k, v => if p.1 = k then (k, v) :: ps else p :: mapSet ps k v

/-- The loop body of `initLangs` (`init.go` lines 189-213) over the
remaining language keys.  `log.Fatalf` is the `.error` branch: the process
halts and no `LangMap` is produced. -/
def initLangsLoop (sys : PluginSys) (ko : KoanfEnv) :
    List String → List (String × Lang) → Except String (List (String × Lang))
  | [], out => .ok out
  | l :: ls, out =>
    match ko.unmarshal l with
    | .error e => .error ("error loading languages: " ++ e)
    | .ok c =>
      let lang := c.toLang
      if lang.tokenizerType = "plugin" then
        match loadTokenizerPlugin sys lang.tokenizerName with
        | .error e =>
          .error ("error loading tokenizer plugin for " ++ l ++ ": " ++ e)
        | .ok tk =>
          initLangsLoop sys ko ls
            (mapSet out l
              { lang with tokenizer := some tk, tokenizerName := tk.id })
      else
        initLangsLoop sys ko ls (mapSet out l lang)

/-- Embedding of `initLangs` (`init.go` lines 185-216). -/
def initLangs (sys : PluginSys) (ko : KoanfEnv) :
    Except String (List (String × Lang)) :=
  initLangsLoop sys ko ko.langKeys []

/-! ### File system bootstrapping (`initFileSystem`, `generateNewFiles`) -/

/-- A `stuffbin.FileSystem`: named files with string contents. -/
structure AssetFS where
  files : List (String × String)

/-- `fs.Read(name)`: the file's bytes, or an error when absent. -/
def AssetFS.read (fs : AssetFS) (name : String) : Except String String :=
  match fs.files.find? (fun p => p.1 = name) with
  | some p => .ok p.2
  | none => .error ("file not found: " ++ name)

/-- Result of `os.Stat("config.toml")` classified by `os.IsNotExist`:
the stat succeeded (file found), it failed with a not-exist error, or it
failed with some other error. -/
inductive StatResult where
  | found
  | notExist
  | otherError
deriving DecidableEq

/-- The OS/stuffbin capabilities consulted by `initFileSystem` and
`generateNewFiles`: `os.Executable`, `stuffbin.UnStuff`,
`stuffbin.NewLocalFS`, and whether `ioutil.WriteFile` fails. -/
structure SysEnv where
  executable : Except String String
  unStuff : String → Except String AssetFS
  newLocalFS : String → List String → Except String AssetFS
  writeErr : Option String

/-- Embedding of `initFileSystem` (`init.go` lines 37-65): return the
stuffed filesystem extracted from the running executable; on extraction
failure fall back to a local filesystem over the three required asset
files, wrapping only the fallback's own failure. -/
def initFileSystem (env : SysEnv) : Except String AssetFS :=
  match env.executable with
  | .error e => .error e
  | .ok path =>
    match env.unStuff path with
    | .ok fs => .ok fs
    | .error _ =>
      match env.newLocalFS "/" ["config.toml.sample", "queries.sql", "schema.sql"] with
      | .error e => .error ("failed to initialize local file for assets: " ++ e)
      | .ok fs => .ok fs

/-- The working directory's files, as name/content pairs. -/
def Disk := List (String × String)

/-- Content of a file on the disk, if present. -/
def diskGet (disk : Disk) (name : String) : Option String :=
  match disk with
  | [] => none
  | p :: ps => if p.1 = name then some p.2 else diskGet ps name

/-- `ioutil.WriteFile`: create or replace a file on the disk. -/
def diskSet (disk : Disk) (name content : String) : Disk :=
  match disk with
  | [] => [(name, content)]
  | p :: ps =>
    if p.1 = name then (name, content) :: ps else p :: diskSet ps name content

/-- Embedding of `generateNewFiles` (`init.go` lines 218-241): refuse when
`os.Stat("config.toml")` does not report not-exist; otherwise build the
asset filesystem, read `config.toml.sample` and write it to `config.toml`.
The result pairs the returned error (if any) with the disk after the call. -/
def generateNewFiles (env : SysEnv) (stat : StatResult) (disk : Disk) :
    Option String × Disk :=
  if stat = StatResult.notExist then
    match initFileSystem env with
    | .error e => (some e, disk)
    | .ok fs =>
      match fs.read "config.toml.sample" with
      | .error e =>
        (some ("error reading sample config (is binary stuffed?): " ++ e), disk)
      | .ok b =>
        match env.writeErr with
        | some e => (some e, disk)
        | none => (none, diskSet disk "config.toml" b)
  else
    (some "config.toml exists. Remove it to generate a new one", disk)

/-! ### HTTP handler registration (`initHandlers`) -/

/-- HTTP method of a chi route registration. -/
inductive Method where
  | get
  | post
  | put
  | delete
deriving DecidableEq

/-- One chi route registration: method, URL pattern, and a tag naming the
handler passed to the registration. -/
structure Route where
  method : Method
  pattern : String
  handler : String
deriving DecidableEq

/-- The chi mux: registered middlewares and routes, in registration order. -/
structure Mux where
  middlewares : List String
  routes : List Route

/-- `r.Use(mw)`. -/
def Mux.use (m : Mux) (mw : String) : Mux :=
  { m with middlewares := m.middlewares ++ [mw] }

/-- `r.Get(pattern, handler)`. -/
def Mux.get (m : Mux) (pat handler : String) : Mux :=
  { m with routes := m.routes ++ [⟨Method.get, pat, handler⟩] }

/-- `r.Post(pattern, handler)`. -/
def Mux.post (m : Mux) (pat handler : String) : Mux :=
  { m with routes := m.routes ++ [⟨Method.post, pat, handler⟩] }

/-- `r.Put(pattern, handler)`. -/
def Mux.put (m : Mux) (pat handler : String) : Mux :=
  { m with routes := m.routes ++ [⟨Method.put, pat, handler⟩] }

/-- `r.Delete(pattern, handler)`. -/
def Mux.delete (m : Mux) (pat handler : String) : Mux :=
  { m with routes := m.routes ++ [⟨Method.delete, pat, handler⟩] }

/-- Embedding of `initHandlers` (`init.go` lines 140-182), recording each
registration in source order.  `site` is `app.constants.Site`. -/
def initHandlers (site : String) (r : Mux) : Mux :=
  let r := r.use "StripSlashes"
  let r :=
    if site ≠ "" then
      let r := r.get "/" "handleIndexPage"
      let r := r.get "/dictionary/{fromLang}/{toLang}/{q}" "handleSearchPage"
      let r := r.get "/dictionary/{fromLang}/{toLang}" "handleGlossaryPage"
      let r := r.get "/glossary/{fromLang}/{toLang}/{initial}" "handleGlossaryPage"
      let r := r.get "/glossary/{fromLang}/{toLang}" "handleGlossaryPage"
      let r := r.get "/pages/{page}" "handleStaticPage"
      let r := r.get "/static/*" "siteStaticFiles"
      r
    else
      r.get "/" "welcomeGreeting"
  let r := r.get "/admin/static/*" "adminStaticFiles"
  let r := r.get "/admin" "adminPage:index"
  let r := r.get "/admin/search" "adminPage:search"
  let r := r.get "/admin/entries/{guid}" "adminPage:entry"
  let r := r.get "/api/config" "handleGetConfig"
  let r := r.get "/api/stats" "handleGetStats"
  let r := r.post "/api/entries" "handleInsertEntry"
  let r := r.get "/api/entries/{guid}" "handleGetEntry"
  let r := r.get "/api/entries/{guid}/parents" "handleGetParentEntries"
  let r := r.delete "/api/entries/{guid}" "handleDeleteEntry"
  let r := r.delete "/api/entries/{fromGuid}/relations/{toGuid}" "handleDeleteRelation"
  let r := r.post "/api/entries/{fromGuid}/relations/{toGuid}" "handleAddRelation"
  let r := r.put "/api/entries/{guid}/relations/weights" "handleReorderRelations"
  let r := r.put "/api/entries/{guid}/relations/{relID}" "handleUpdateRelation"
  let r := r.put "/api/entries/{guid}" "handleUpdateEntry"
  let r := r.get "/api/dictionary/{fromLang}/{toLang}/{q}" "handleSearch"
  r

/-- The dictionary-site HTML routes registered when a site is configured. -/
def siteHtmlRoutes : List Route :=
  [⟨Method.get, "/", "handleIndexPage"⟩,
   ⟨Method.get, "/dictionary/{fromLang}/{toLang}/{q}", "handleSearchPage"⟩,
   ⟨Method.get, "/dictionary/{fromLang}/{toLang}", "handleGlossaryPage"⟩,
   ⟨Method.get, "/glossary/{fromLang}/{toLang}/{initial}", "handleGlossaryPage"⟩,
   ⟨Method.get, "/glossary/{fromLang}/{toLang}", "handleGlossaryPage"⟩,
   ⟨Method.get, "/pages/{page}", "handleStaticPage"⟩,
   ⟨Method.get, "/static/*", "siteStaticFiles"⟩]

/-- The admin routes, registered unconditionally. -/
def adminRoutes : List Route :=
  [⟨Method.get, "/admin/static/*", "adminStaticFiles"⟩,
   ⟨Method.get, "/admin", "adminPage:index"⟩,
   ⟨Method.get, "/admin/search", "adminPage:search"⟩,
   ⟨Method.get, "/admin/entries/{guid}", "adminPage:entry"⟩]

/-- The `/api/*` routes, registered unconditionally. -/
def apiRoutes : List Route :=
  [⟨Method.get, "/api/config", "handleGetConfig"⟩,
   ⟨Method.get, "/api/stats", "handleGetStats"⟩,
   ⟨Method.post, "/api/entries", "handleInsertEntry"⟩,
   ⟨Method.get, "/api/entries/{guid}", "handleGetEntry"⟩,
   ⟨Method.get, "/api/entries/{guid}/parents", "handleGetParentEntries"⟩,
   ⟨Method.delete, "/api/entries/{guid}", "handleDeleteEntry"⟩,
   ⟨Method.delete, "/api/entries/{fromGuid}/relations/{toGuid}", "handleDeleteRelation"⟩,
   ⟨Method.post, "/api/entries/{fromGuid}/relations/{toGuid}", "handleAddRelation"⟩,
   ⟨Method.put, "/api/entries/{guid}/relations/weights", "handleReorderRelations"⟩,
   ⟨Method.put, "/api/entries/{guid}/relations/{relID}", "handleUpdateRelation"⟩,
   ⟨Method.put, "/api/entries/{guid}", "handleUpdateEntry"⟩,
   ⟨Method.get, "/api/dictionary/{fromLang}/{toLang}/{q}", "handleSearch"⟩]

/-! ### Relation graph (`addRelation`, `reorderRelations`) -/

/-- Errors of the relation-graph command operations. -/
inductive DbErr where
  | notFound
  | conflict
  | validation
deriving DecidableEq

/-- A directed, typed, weighted relation edge between two entries. -/
structure Relation where
  rid : Nat
  fromId : Nat
  toId : Nat
  rtype : String
  weight : Int
  note : String
deriving DecidableEq

/-- The relation-graph state: the existing entry GUIDs, the relation rows in
insertion order, and the next fresh relation ID. -/
structure Graph where
  entries : List Nat
  relations : List Relation
  nextRelId : Nat
deriving DecidableEq

/-- The `(fromGuid, type)` sibling group: all relations with the given
source entry and relation type, in insertion order. -/
def groupRels (g : Graph) (f : Nat) (ty : String) : List Relation :=
  g.relations.filter (fun r => r.fromId = f ∧ r.rtype = ty)

/-- Whether an identical `(fromGuid, toGuid, type)` relation already exists. -/
def hasTriple (g : Graph) (f t : Nat) (ty : String) : Bool :=
  g.relations.any (fun r => r.fromId = f && r.toId = t && r.rtype = ty)

/-- The maximum of a list of weights, or `none` when the list is empty. -/
def maxW : List Int → Option Int
  | [] => none
  | w :: ws =>
    some (match maxW ws with
          | none => w
          | some m => max w m)

/-- The weight assigned to a newly appended relation: the current maximum
weight in the group plus 1, or 0 when the group is empty. -/
def nextWeight (ws : List Int) : Int :=
  match maxW ws with
  | none => 0
  | some m => m + 1

/-- Modelled from the spec: `addRelation(fromGuid, toGuid, type, note)`
(the implementation lives outside `cmd/dictmaker/init.go`).  Fails with
`NotFound` when either endpoint is missing, with `Conflict` when an
identical `(fromGuid, toGuid, type)` relation already exists, and otherwise
appends a new relation whose weight is the current maximum weight in the
`(fromGuid, type)` group plus 1, or 0 when the group is empty. -/
def addRelation (g : Graph) (f t : Nat) (ty note : String) :
    Except DbErr Graph :=
  if f ∈ g.entries ∧ t ∈ g.entries then
    if hasTriple g f t ty then .error .conflict
    else
      .ok { g with
        relations := g.relations ++
          [⟨g.nextRelId, f, t, ty, nextWeight ((groupRels g f ty).map (·.weight)), note⟩],
        nextRelId := g.nextRelId + 1 }
  else .error .notFound

/-- N sequential `addRelation` calls from the same source entry with the
same type, targeting `ts` in order. -/
def addSeq (g : Graph) (f : Nat) (ts : List Nat) (ty note : String) :
    Except DbErr Graph :=
  match ts with
  | [] => .ok g
  | t :: rest =>
    match addRelation g f t ty note with
    | .error e => .error e
    | .ok g1 => addSeq g1 f rest ty note

/-- 0-based position of `x` in `ids`, if present. -/
def idxOf (ids : List Nat) (x : Nat) : Option Nat :=
  match ids with
  | [] => none
  | i :: rest =>
    if i = x then some 0 else (idxOf rest x).map (· + 1)

/-- Modelled from the spec: `reorderRelations(guid, orderedRelationIDs)`
(the implementation lives outside `cmd/dictmaker/init.go`).  Validates that
every supplied relation ID names a relation of entry `guid`; on success it
atomically rewrites the weight of each named relation of `guid` to its
0-based position in the list and leaves every other relation untouched; on
validation failure it changes nothing.  The result pairs the error (if any)
with the graph after the call, making all-or-nothing observable. -/
def reorderRelations (g : Graph) (guid : Nat) (ids : List Nat) :
    Option DbErr × Graph :=
  if ids.all (fun i => g.relations.any (fun r => r.rid = i && r.fromId = guid)) then
    (none,
     { g with relations := g.relations.map (fun r =>
         if r.fromId = guid then
           match idxOf ids r.rid with
           | some n => { r with weight := (n : Int) }
           | none => r
         else r) })
  else (some .notFound, g)

/-! ### Specification predicates and concrete instances used by witnesses -/

/-- What `initLangs` guarantees for a key/value pair it stored: the value
comes from unmarshalling that key, display data is preserved, and the
tokenizer fields reflect the plugin branch. -/
def LangSpec (sys : PluginSys) (ko : KoanfEnv) (l : String) (lang : Lang) : Prop :=
  ∃ c, ko.unmarshal l = .ok c ∧ lang.name = c.name ∧ lang.types = c.types ∧
    lang.tokenizerType = c.tokenizerType ∧
    ((c.tokenizerType = "plugin" ∧
        ∃ tk, loadTokenizerPlugin sys c.tokenizerName = .ok tk ∧
          lang.tokenizerName = tk.id ∧ lang.tokenizer = some tk) ∨
     (¬ c.tokenizerType = "plugin" ∧
        lang.tokenizerName = c.tokenizerName ∧ lang.tokenizer = none))

/-- A concrete tokenizer, used by witnesses. -/
def tokenizerW : Tokenizer := ⟨"indicphone-v1", fun s => [s]⟩

/-- A concrete plugin exposing a well-typed `New` symbol. -/
def pluginOkW : Plugin :=
  ⟨fun name =>
    if name = "New" then .ok (Symbol.newFn (fun _ => .ok tokenizerW))
    else .error "symbol not found"⟩

/-- A plugin system in which every path opens `pluginOkW`. -/
def sysOkW : PluginSys := ⟨fun _ => .ok pluginOkW⟩

/-- A plugin system in which every open fails. -/
def sysFailW : PluginSys := ⟨fun _ => .error "no such file"⟩

/-- A language configured with a plugin tokenizer. -/
def confPluginW : ConfLang := ⟨"English", "en.tk", "plugin", [("noun", "Noun")]⟩

/-- A language configured with a non-plugin tokenizer. -/
def confPlainW : ConfLang := ⟨"English", "default", "indicphone", [("noun", "Noun")]⟩

/-- A koanf configuration with one plugin-tokenized language `en`. -/
def koPluginW : KoanfEnv := ⟨["en"], fun _ => .ok confPluginW⟩

/-- A koanf configuration with one non-plugin language `en`. -/
def koPlainW : KoanfEnv := ⟨["en"], fun _ => .ok confPlainW⟩

/-- A concrete asset filesystem holding the three bundled files. -/
def assetFSW : AssetFS :=
  ⟨[("config.toml.sample", "sample-config"),
    ("queries.sql", "queries"),
    ("schema.sql", "schema")]⟩

/-- A concrete OS environment in which un-stuffing the executable fails and
the local fallback filesystem initializes successfully. -/
def envLocalW : SysEnv :=
  ⟨.ok "/usr/bin/dictmaker",
   fun _ => .error "stuffbin: invalid binary",
   fun _ _ => .ok assetFSW,
   none⟩

/-- A concrete OS environment in which `os.Executable` itself fails while
both un-stuffing and the local fallback would succeed. -/
def envExeFailW : SysEnv :=
  ⟨.error "cannot determine executable path",
   fun _ => .ok assetFSW,
   fun _ _ => .ok assetFSW,
   none⟩

/-! ## Theorems -/

theorem mapGet_mapSet_self (out : List (String × Lang)) (k : String) (v : Lang) :
    mapGet (mapSet out k v) k = some v := by
  induction out with
  | nil => simp [mapSet, mapGet]
  | cons p ps ih =>
    by_cases h : p.1 = k
    · simp [mapSet, mapGet, h]
    · simp [mapSet, mapGet, h, ih]

theorem mapGet_mapSet_ne (out : List (String × Lang)) (k : String) (v : Lang)
    (l : String) (h : l ≠ k) : mapGet (mapSet out k v) l = mapGet out l := by
  induction out with
  | nil =>
    simp only [mapSet, mapGet]
    rw [if_neg (fun h2 => h h2.symm)]
  | cons p ps ih =>
    by_cases hp : p.1 = k
    · simp only [mapSet, if_pos hp, mapGet]
      rw [if_neg (fun h2 => h h2.symm), hp, if_neg (fun h2 => h h2.symm)]
    · simp only [mapSet, if_neg hp, mapGet, ih]

theorem mapGet_isSome_mapSet (out : List (String × Lang)) (k : String) (v : Lang)
    (l : String) :
    (mapGet (mapSet out k v) l).isSome ↔ ((mapGet out l).isSome ∨ l = k) := by
  by_cases h : l = k
  · subst h; simp [mapGet_mapSet_self]
  · simp [mapGet_mapSet_ne out k v l h, h]

theorem mapSet_keys_mem (out : List (String × Lang)) (k : String) (v : Lang)
    (l : String) :
    l ∈ (mapSet out k v).map (·.1) ↔ (l ∈ out.map (·.1) ∨ l = k) := by
  induction out with
  | nil => simp [mapSet]
  | cons p ps ih =>
    by_cases hp : p.1 = k
    · subst hp; simp [mapSet]; tauto
    · simp [mapSet, hp, ih]; tauto

theorem mapSet_keys_nodup (out : List (String × Lang)) (k : String) (v : Lang)
    (h : (out.map (·.1)).Nodup) : ((mapSet out k v).map (·.1)).Nodup := by
  induction out with
  | nil => simp [mapSet]
  | cons p ps ih =>
    simp only [List.map_cons, List.nodup_cons] at h
    by_cases hp : p.1 = k
    · subst hp
      simpa [mapSet, List.nodup_cons] using h
    · simp only [mapSet, hp, if_false, List.map_cons, List.nodup_cons]
      refine ⟨fun hmem => ?_, ih h.2⟩
      rcases (mapSet_keys_mem ps k v p.1).mp hmem with h1 | h1
      · exact h.1 h1
      · exact hp h1

theorem initLangsLoop_ok (sys : PluginSys) (ko : KoanfEnv) :
    ∀ (keys : List String) (out m : List (String × Lang)),
      initLangsLoop sys ko keys out = .ok m →
      ∀ l ∈ keys, ∃ c, ko.unmarshal l = .ok c ∧
        (c.tokenizerType = "plugin" →
          ∃ tk, loadTokenizerPlugin sys c.tokenizerName = .ok tk) := by
  intro keys
  induction keys with
  | nil => intro out m _ l hl; exact absurd hl (List.not_mem_nil l)
  | cons l0 ls ih =>
    intro out m h l hl
    rcases hunm : ko.unmarshal l0 with e | c
    · simp only [initLangsLoop, hunm] at h
      exact Except.noConfusion h
    · simp only [initLangsLoop, hunm, ConfLang.toLang] at h
      by_cases hty : c.tokenizerType = "plugin"
      · rw [if_pos hty] at h
        rcases hld : loadTokenizerPlugin sys c.tokenizerName with e | tk
        · rw [hld] at h; exact Except.noConfusion h
        · rw [hld] at h
          rcases List.mem_cons.mp hl with rfl | hl2
          · exact ⟨c, hunm, fun _ => ⟨tk, hld⟩⟩
          · exact ih _ _ h l hl2
      · rw [if_neg hty] at h
        rcases List.mem_cons.mp hl with rfl | hl2
        · exact ⟨c, hunm, fun habs => absurd habs hty⟩
        · exact ih _ _ h l hl2

theorem initLangsLoop_spec (sys : PluginSys) (ko : KoanfEnv) :
    ∀ (keys : List String) (out m : List (String × Lang)),
      initLangsLoop sys ko keys out = .ok m →
      (∀ l, (mapGet m l).isSome ↔ ((mapGet out l).isSome ∨ l ∈ keys))
      ∧ ((out.map (·.1)).Nodup → (m.map (·.1)).Nodup)
      ∧ (∀ l lang, mapGet m l = some lang →
          mapGet out l = some lang ∨ LangSpec sys ko l lang) := by
  intro keys
  induction keys with
  | nil =>
    intro out m h
    have hm : out = m := by simpa [initLangsLoop] using h
    subst hm
    exact ⟨fun l => by simp, id, fun l lang h => Or.inl h⟩
  | cons l0 ls ih =>
    intro out m h
    rcases hunm : ko.unmarshal l0 with e | c
    · simp only [initLangsLoop, hunm] at h
      exact Except.noConfusion h
    · simp only [initLangsLoop, hunm, ConfLang.toLang] at h
      by_cases hty : c.tokenizerType = "plugin"
      · rw [if_pos hty] at h
        rcases hld : loadTokenizerPlugin sys c.tokenizerName with e | tk
        · rw [hld] at h; exact Except.noConfusion h
        · rw [hld] at h
          obtain ⟨ih1, ih2, ih3⟩ := ih _ _ h
          refine ⟨fun l => ?_, fun hnd => ih2 (mapSet_keys_nodup _ _ _ hnd), ?_⟩
          · rw [ih1 l, mapGet_isSome_mapSet]
            simp [List.mem_cons]
            tauto
          · intro l lang hm
            rcases ih3 l lang hm with h1 | h1
            · by_cases hl : l = l0
              · subst hl
                rw [mapGet_mapSet_self] at h1
                refine Or.inr ⟨c, hunm, ?_⟩
                cases h1
                exact ⟨rfl, rfl, rfl, Or.inl ⟨hty, tk, hld, rfl, rfl⟩⟩
              · rw [mapGet_mapSet_ne out l0 _ l hl] at h1
                exact Or.inl h1
            · exact Or.inr h1
      · rw [if_neg hty] at h
        obtain ⟨ih1, ih2, ih3⟩ := ih _ _ h
        refine ⟨fun l => ?_, fun hnd => ih2 (mapSet_keys_nodup _ _ _ hnd), ?_⟩
        · rw [ih1 l, mapGet_isSome_mapSet]
          simp [List.mem_cons]
          tauto
        · intro l lang hm
          rcases ih3 l lang hm with h1 | h1
          · by_cases hl : l = l0
            · subst hl
              rw [mapGet_mapSet_self] at h1
              refine Or.inr ⟨c, hunm, ?_⟩
              cases h1
              exact ⟨rfl, rfl, rfl, Or.inr ⟨hty, rfl, rfl⟩⟩
            · rw [mapGet_mapSet_ne out l0 _ l hl] at h1
              exact Or.inl h1
          · exact Or.inr h1

/-- C2: `loadTokenizerPlugin(path)` returns an error exactly when the
plugin cannot be opened, no `New` symbol exists, the `New` symbol is not of
type `func() (data.Tokenizer, error)`, or calling `New()` fails; otherwise
it returns the tokenizer produced by `New()`. -/
theorem loadTokenizerPlugin_cases (sys : PluginSys) (path : String) :
    (∀ e, sys.openPlugin path = .error e →
      loadTokenizerPlugin sys path =
        .error ("error loading tokenizer plugin " ++ path ++ ": " ++ e))
    ∧ (∀ plg, sys.openPlugin path = .ok plg →
        (∀ e, plg.lookup "New" = .error e →
          loadTokenizerPlugin sys path =
            .error ("New() function not found in plugin " ++ path ++ ": " ++ e))
        ∧ (∀ s, plg.lookup "New" = .ok s → isNewFn s = false →
            loadTokenizerPlugin sys path =
              .error ("New() function is of invalid type in plugin " ++ path))
        ∧ (∀ f, plg.lookup "New" = .ok (Symbol.newFn f) →
            (∀ e, f () = .error e →
              loadTokenizerPlugin sys path =
                .error ("error initializing provider plugin " ++ path ++ ": " ++ e))
            ∧ (∀ tk, f () = .ok tk → loadTokenizerPlugin sys path = .ok tk))) := by
  refine ⟨fun e he => ?_,
    fun plg hplg => ⟨fun e he => ?_, fun s hs hbad => ?_,
      fun f hf => ⟨fun e he => ?_, fun tk htk => ?_⟩⟩⟩
  · simp only [loadTokenizerPlugin, he]
  · simp only [loadTokenizerPlugin, hplg, he]
  · cases s with
    | newFn f => simp [isNewFn] at hbad
    | other d => simp only [loadTokenizerPlugin, hplg, hs]
  · simp only [loadTokenizerPlugin, hplg, hf, he]
  · simp only [loadTokenizerPlugin, hplg, hf, htk]

/-- Witness for C2: on a concrete plugin system with a well-typed `New`
symbol, `loadTokenizerPlugin` returns the tokenizer produced by `New()`. -/
theorem loadTokenizerPlugin_cases_witness :
    loadTokenizerPlugin sysOkW "p.tk" = .ok tokenizerW :=
  (((loadTokenizerPlugin_cases sysOkW "p.tk").2 pluginOkW rfl).2.2
      (fun _ => .ok tokenizerW) rfl).2 tokenizerW rfl

/-- C1: for a language configured with TokenizerType `"plugin"`, if loading
the tokenizer plugin fails, `initLangs` halts fatally: it never returns a
`LangMap` (no recovery path exists). -/
theorem initLangs_plugin_failure_fatal (sys : PluginSys) (ko : KoanfEnv)
    (l : String) (c : ConfLang) (e : String)
    (hmem : l ∈ ko.langKeys) (hc : ko.unmarshal l = .ok c)
    (hty : c.tokenizerType = "plugin")
    (hload : loadTokenizerPlugin sys c.tokenizerName = .error e) :
    ∀ m, initLangs sys ko ≠ .ok m := by
  intro m hok
  obtain ⟨c', hc', hplug⟩ := initLangsLoop_ok sys ko ko.langKeys [] m hok l hmem
  rw [hc] at hc'
  injection hc' with hcc
  subst hcc
  obtain ⟨tk, htk⟩ := hplug hty
  rw [hload] at htk
  exact Except.noConfusion htk

/-- Witness for C1: with a concrete configuration whose only language uses
a plugin tokenizer that fails to open, `initLangs` does not return a map. -/
theorem initLangs_plugin_failure_fatal_witness :
    initLangs sysFailW koPluginW ≠ .ok [] :=
  initLangs_plugin_failure_fatal sysFailW koPluginW "en" confPluginW
    "error loading tokenizer plugin en.tk: no such file"
    (List.mem_cons_self "en" []) rfl rfl rfl []

/-- C6: a successful `initLangs` returns a map with exactly one entry per
configured language code, keyed by that code, carrying the language's
display data and entry-type label map; and an unmarshalling error for any
configured language is fatal (no map is returned). -/
theorem initLangs_langmap_complete :
    (∀ (sys : PluginSys) (ko : KoanfEnv) (m : List (String × Lang)),
      initLangs sys ko = .ok m →
      (∀ l, (mapGet m l).isSome ↔ l ∈ ko.langKeys)
      ∧ (m.map (·.1)).Nodup
      ∧ (∀ l lang, mapGet m l = some lang →
          ∃ c, ko.unmarshal l = .ok c ∧ lang.name = c.name ∧ lang.types = c.types))
    ∧ (∀ (sys : PluginSys) (ko : KoanfEnv) (l : String) (e : String),
        l ∈ ko.langKeys → ko.unmarshal l = .error e →
        ∀ m, initLangs sys ko ≠ .ok m) := by
  constructor
  · intro sys ko m hok
    obtain ⟨h1, h2, h3⟩ := initLangsLoop_spec sys ko ko.langKeys [] m hok
    refine ⟨fun l => ?_, h2 (by simp), fun l lang hm => ?_⟩
    · rw [h1 l]; simp [mapGet]
    · rcases h3 l lang hm with hb | hb
      · simp [mapGet] at hb
      · obtain ⟨c, hcu, hname, htypes, _⟩ := hb
        exact ⟨c, hcu, hname, htypes⟩
  · intro sys ko l e hmem herr m hok
    obtain ⟨c, hcu, _⟩ := initLangsLoop_ok sys ko ko.langKeys [] m hok l hmem
    rw [herr] at hcu
    exact Except.noConfusion hcu

/-- Witness for C6: a concrete one-language configuration yields a map
whose `"en"` key is present exactly because `"en"` is configured. -/
theorem initLangs_langmap_complete_witness :
    (mapGet [("en", confPlainW.toLang)] "en").isSome ↔ "en" ∈ koPlainW.langKeys :=
  (initLangs_langmap_complete.1 sysOkW koPlainW [("en", confPlainW.toLang)] rfl).1 "en"

/-- C3: in a successful `initLangs` result, a language whose configured
TokenizerType is `"plugin"` has its TokenizerName overwritten with the
loaded tokenizer's `ID()` and the tokenizer object attached, while any
other language keeps its configured TokenizerName and has no tokenizer
object attached. -/
theorem initLangs_tokenizer_id_overwrite (sys : PluginSys) (ko : KoanfEnv)
    (m : List (String × Lang)) (l : String) (lang : Lang) (c : ConfLang)
    (hok : initLangs sys ko = .ok m) (hget : mapGet m l = some lang)
    (hc : ko.unmarshal l = .ok c) :
    (c.tokenizerType = "plugin" →
      ∃ tk, loadTokenizerPlugin sys c.tokenizerName = .ok tk ∧
        lang.tokenizerName = tk.id ∧ lang.tokenizer = some tk)
    ∧ (c.tokenizerType ≠ "plugin" →
        lang.tokenizerName = c.tokenizerName ∧ lang.tokenizer = none) := by
  obtain ⟨_, _, h3⟩ := initLangsLoop_spec sys ko ko.langKeys [] m hok
  rcases h3 l lang hget with hb | hb
  · simp [mapGet] at hb
  · obtain ⟨c', hc', _, _, _, hcase⟩ := hb
    rw [hc] at hc'
    injection hc' with hcc
    subst hcc
    rcases hcase with ⟨hty, tk, htk, hname, htok⟩ | ⟨hty, hname, htok⟩
    · exact ⟨fun _ => ⟨tk, htk, hname, htok⟩, fun hneg => absurd hty hneg⟩
    · exact ⟨fun hpos => absurd hpos hty, fun _ => ⟨hname, htok⟩⟩

/-- Witness for C3: for a concrete non-plugin language, the configured
TokenizerName is kept and no tokenizer object is attached. -/
theorem initLangs_tokenizer_id_overwrite_witness :
    confPlainW.toLang.tokenizerName = confPlainW.tokenizerName ∧
      confPlainW.toLang.tokenizer = none :=
  (initLangs_tokenizer_id_overwrite sysOkW koPlainW [("en", confPlainW.toLang)]
      "en" confPlainW.toLang confPlainW rfl rfl rfl).2 (by decide)

/-- Counterexample for C8: when `os.Executable` itself fails,
`initFileSystem` returns that error directly even though the local
fallback would have succeeded — refuting "returning an error only when
this local fallback also fails to initialize". -/
theorem initFileSystem_exe_error_counterexample :
    initFileSystem envExeFailW = .error "cannot determine executable path"
    ∧ envExeFailW.newLocalFS "/"
        ["config.toml.sample", "queries.sql", "schema.sql"] = .ok assetFSW :=
  ⟨rfl, rfl⟩

/-- C8 (amended): `initFileSystem` propagates an `os.Executable` failure
directly; otherwise it returns the stuffed filesystem when extraction from
the executable succeeds, and when extraction fails it does not propagate
that failure but falls back to a local filesystem over exactly
`config.toml.sample`, `queries.sql` and `schema.sql`, erring only when
that fallback itself fails. -/
theorem initFileSystem_fallback (env : SysEnv) :
    (∀ e, env.executable = .error e → initFileSystem env = .error e)
    ∧ (∀ path, env.executable = .ok path →
        (∀ fs, env.unStuff path = .ok fs → initFileSystem env = .ok fs)
        ∧ (∀ e, env.unStuff path = .error e →
            (∀ fs,
              env.newLocalFS "/"
                  ["config.toml.sample", "queries.sql", "schema.sql"] = .ok fs →
                initFileSystem env = .ok fs)
            ∧ (∀ e2,
                env.newLocalFS "/"
                    ["config.toml.sample", "queries.sql", "schema.sql"] = .error e2 →
                  initFileSystem env =
                    .error ("failed to initialize local file for assets: " ++ e2)))) := by
  refine ⟨fun e hexe => ?_,
    fun path hexe => ⟨fun fs hfs => ?_, fun e he => ⟨fun fs hfs => ?_, fun e2 he2 => ?_⟩⟩⟩
  · simp only [initFileSystem, hexe]
  · simp only [initFileSystem, hexe, hfs]
  · simp only [initFileSystem, hexe, he, hfs]
  · simp only [initFileSystem, hexe, he, he2]

/-- Witness for C8: in a concrete environment where un-stuffing fails and
the local fallback succeeds, `initFileSystem` returns the fallback. -/
theorem initFileSystem_fallback_witness :
    initFileSystem envLocalW = .ok assetFSW :=
  (((initFileSystem_fallback envLocalW).2 "/usr/bin/dictmaker" rfl).2
      "stuffbin: invalid binary" rfl).1 assetFSW rfl

/-- C7: when `config.toml` exists, `generateNewFiles` returns an error and
leaves the disk unchanged; any change it makes to the disk is exactly the
write of `config.toml.sample`'s contents to `config.toml`, and happens only
when no `config.toml` exists; and when no `config.toml` exists and the
asset pipeline succeeds, that write is performed. -/
theorem generateNewFiles_guard (env : SysEnv) (stat : StatResult) (disk : Disk)
    (hcoh : stat = StatResult.notExist ↔ diskGet disk "config.toml" = none) :
    (diskGet disk "config.toml" ≠ none →
      generateNewFiles env stat disk =
        (some "config.toml exists. Remove it to generate a new one", disk))
    ∧ ((generateNewFiles env stat disk).2 ≠ disk →
        diskGet disk "config.toml" = none ∧
        ∃ fs b, initFileSystem env = .ok fs ∧
          fs.read "config.toml.sample" = .ok b ∧
          generateNewFiles env stat disk = (none, diskSet disk "config.toml" b))
    ∧ (∀ fs b, diskGet disk "config.toml" = none → initFileSystem env = .ok fs →
        fs.read "config.toml.sample" = .ok b → env.writeErr = none →
        generateNewFiles env stat disk = (none, diskSet disk "config.toml" b)) := by
  refine ⟨fun hex => ?_, fun hch => ?_, fun fs b hnone hfs hread hw => ?_⟩
  · have hstat : ¬ stat = StatResult.notExist := fun h => hex (hcoh.mp h)
    simp only [generateNewFiles, if_neg hstat]
  · by_cases hstat : stat = StatResult.notExist
    · rcases hifs : initFileSystem env with e | fs
      · simp only [generateNewFiles, if_pos hstat, hifs] at hch
        exact absurd rfl hch
      · rcases hread : fs.read "config.toml.sample" with e | b
        · simp only [generateNewFiles, if_pos hstat, hifs, hread] at hch
          exact absurd rfl hch
        · rcases hw : env.writeErr with _ | e
          · refine ⟨hcoh.mp hstat, fs, b, rfl, hread, ?_⟩
            simp only [generateNewFiles, if_pos hstat, hifs, hread, hw]
          · simp only [generateNewFiles, if_pos hstat, hifs, hread, hw] at hch
            exact absurd rfl hch
    · simp only [generateNewFiles, if_neg hstat] at hch
      exact absurd rfl hch
  · have hstat : stat = StatResult.notExist := hcoh.mpr hnone
    simp only [generateNewFiles, if_pos hstat, hfs, hread, hw]

/-- Witness for C7: on an empty disk with a working asset pipeline,
`generateNewFiles` writes the sample config to `config.toml`. -/
theorem generateNewFiles_guard_witness :
    generateNewFiles envLocalW StatResult.notExist [] =
      (none, [("config.toml", "sample-config")]) :=
  (generateNewFiles_guard envLocalW StatResult.notExist []
      (by simp [diskGet])).2.2 assetFSW "sample-config" rfl rfl rfl rfl

/-- C9: starting from an empty mux, `initHandlers` registers the dictionary
site HTML routes if and only if the configured site is non-empty; with an
empty site only the plain greeting is served at `/`; and the admin and
`/api/*` routes are registered unconditionally in both cases. -/
theorem initHandlers_site_routes (site : String) :
    (∀ rt ∈ siteHtmlRoutes,
      rt ∈ (initHandlers site (Mux.mk [] [])).routes ↔ site ≠ "")
    ∧ (Route.mk Method.get "/" "welcomeGreeting" ∈
        (initHandlers site (Mux.mk [] [])).routes ↔ site = "")
    ∧ (∀ rt ∈ adminRoutes, rt ∈ (initHandlers site (Mux.mk [] [])).routes)
    ∧ (∀ rt ∈ apiRoutes, rt ∈ (initHandlers site (Mux.mk [] [])).routes)
    ∧ (site = "" → (initHandlers site (Mux.mk [] [])).routes =
        Route.mk Method.get "/" "welcomeGreeting" :: (adminRoutes ++ apiRoutes)) := by
  by_cases hsite : site = ""
  · subst hsite
    decide
  · have houts : (initHandlers site (Mux.mk [] [])).routes =
        siteHtmlRoutes ++ adminRoutes ++ apiRoutes := by
      simp [initHandlers, Mux.use, Mux.get, Mux.post, Mux.put, Mux.delete,
        hsite, siteHtmlRoutes, adminRoutes, apiRoutes]
    refine ⟨fun rt hrt => ?_, ?_, fun rt hrt => ?_, fun rt hrt => ?_,
      fun h => absurd h hsite⟩
    · rw [houts]
      exact iff_of_true (List.mem_append_left _ (List.mem_append_left _ hrt)) hsite
    · rw [houts]
      exact iff_of_false (by decide) hsite
    · rw [houts]
      exact List.mem_append_left _ (List.mem_append_right _ hrt)
    · rw [houts]
      exact List.mem_append_right _ hrt

/-- Witness for C9: with an empty site, the registered routes are exactly
the greeting at `/` followed by the admin and API routes. -/
theorem initHandlers_site_routes_witness :
    (initHandlers "" (Mux.mk [] [])).routes =
      Route.mk Method.get "/" "welcomeGreeting" :: (adminRoutes ++ apiRoutes) :=
  (initHandlers_site_routes "").2.2.2.2 rfl

theorem maxW_append (l : List Int) (x : Int) :
    maxW (l ++ [x]) =
      some (match maxW l with | none => x | some m => max m x) := by
  induction l with
  | nil => rfl
  | cons w ws ih =>
    cases hm : maxW ws with
    | none =>
      rw [hm] at ih
      simp [maxW, ih, hm]
    | some m =>
      rw [hm] at ih
      simp [maxW, ih, hm, max_assoc]

theorem maxW_rangeZ (k : Nat) :
    maxW ((List.range (k + 1)).map Int.ofNat) = some (Int.ofNat k) := by
  induction k with
  | zero => rfl
  | succ k ih =>
    rw [List.range_succ, List.map_append]
    simp only [List.map_cons, List.map_nil]
    rw [maxW_append, ih]
    congr 1
    show max (Int.ofNat k) (Int.ofNat (k + 1)) = Int.ofNat (k + 1)
    rw [max_eq_right]
    exact Int.ofNat_le.mpr (Nat.le_succ k)

theorem nextWeight_rangeZ (k : Nat) :
    nextWeight ((List.range k).map Int.ofNat) = Int.ofNat k := by
  cases k with
  | zero => rfl
  | succ k =>
    simp only [nextWeight, maxW_rangeZ k]
    rfl

theorem addSeq_ok (f : Nat) (ty note : String) :
    ∀ (ts : List Nat) (g : Graph) (k : Nat),
      f ∈ g.entries → (∀ t ∈ ts, t ∈ g.entries) → ts.Nodup →
      (∀ t ∈ ts, hasTriple g f t ty = false) →
      (groupRels g f ty).map (·.weight) =
        (List.range k).map Int.ofNat →
      ∃ g', addSeq g f ts ty note = .ok g' ∧
        (groupRels g' f ty).map (·.weight) =
          (List.range (k + ts.length)).map Int.ofNat ∧
        (groupRels g' f ty).map (·.toId) =
          (groupRels g f ty).map (·.toId) ++ ts := by
  intro ts
  induction ts with
  | nil =>
    intro g k hf _ _ _ hw
    exact ⟨g, rfl, by simpa using hw, by simp⟩
  | cons t rest ih =>
    intro g k hf hts hnd htr hw
    have hmem : f ∈ g.entries ∧ t ∈ g.entries :=
      ⟨hf, hts t (List.mem_cons_self t rest)⟩
    have htrt : hasTriple g f t ty = false := htr t (List.mem_cons_self t rest)
    have hnw : nextWeight ((groupRels g f ty).map (·.weight)) = Int.ofNat k := by
      rw [hw, nextWeight_rangeZ]
    set newRel : Relation :=
      ⟨g.nextRelId, f, t, ty, nextWeight ((groupRels g f ty).map (·.weight)), note⟩
      with hnewRel
    have hadd : addRelation g f t ty note =
        .ok { g with relations := g.relations ++ [newRel],
                     nextRelId := g.nextRelId + 1 } := by
      rw [addRelation, if_pos hmem, if_neg (by simp [htrt])]
    set g1 : Graph :=
      { g with relations := g.relations ++ [newRel],
               nextRelId := g.nextRelId + 1 } with hg1
    have hgroup1 : groupRels g1 f ty = groupRels g f ty ++ [newRel] := by
      simp [groupRels, hg1, List.filter_append, hnewRel]
    have hw1 : (groupRels g1 f ty).map (·.weight) =
        (List.range (k + 1)).map Int.ofNat := by
      rw [hgroup1, List.map_append, hw, List.range_succ, List.map_append]
      simp [hnewRel, hnw]
    have htr1 : ∀ t2 ∈ rest, hasTriple g1 f t2 ty = false := by
      intro t2 ht2
      have hne : t ≠ t2 := by
        intro h
        subst h
        exact (List.nodup_cons.mp hnd).1 ht2
      have h2 := htr t2 (List.mem_cons_of_mem t ht2)
      simp only [hasTriple, hg1, List.any_append]
      simp only [hasTriple] at h2
      rw [h2]
      simp [hnewRel, hne]
    obtain ⟨g', hseq, hwts, htos⟩ :=
      ih g1 (k + 1) hf (fun t2 ht2 => hts t2 (List.mem_cons_of_mem t ht2))
        (List.nodup_cons.mp hnd).2 htr1 hw1
    refine ⟨g', ?_, ?_, ?_⟩
    · rw [addSeq, hadd]
      exact hseq
    · rw [hwts]
      congr 2
      simp [List.length_cons]
      omega
    · rw [htos, hgroup1]
      simp [hnewRel]

/-- C4: `addRelation` assigns weight = max of the `(fromGuid, type)` group
plus 1 (0 when the group is empty); a second identical
`(fromGuid, toGuid, type)` triple fails with Conflict; and N sequential
calls into an initially empty group yield weights exactly `0..N-1` in call
order. -/
theorem addRelation_weight_spec :
    (∀ (g : Graph) (f t : Nat) (ty note : String),
      f ∈ g.entries → t ∈ g.entries →
      (hasTriple g f t ty = true →
        addRelation g f t ty note = .error DbErr.conflict)
      ∧ (hasTriple g f t ty = false →
          addRelation g f t ty note = .ok
            (Graph.mk g.entries
              (g.relations ++
                [Relation.mk g.nextRelId f t ty
                  (nextWeight ((groupRels g f ty).map (·.weight))) note])
              (g.nextRelId + 1))
          ∧ ((groupRels g f ty = [] ∧
               nextWeight ((groupRels g f ty).map (·.weight)) = 0)
             ∨ (∃ m, maxW ((groupRels g f ty).map (·.weight)) = some m ∧
                 nextWeight ((groupRels g f ty).map (·.weight)) = m + 1))))
    ∧ (∀ (g g1 : Graph) (f t : Nat) (ty note note2 : String),
        addRelation g f t ty note = .ok g1 →
        addRelation g1 f t ty note2 = .error DbErr.conflict)
    ∧ (∀ (g : Graph) (f : Nat) (ts : List Nat) (ty note : String),
        f ∈ g.entries → (∀ t ∈ ts, t ∈ g.entries) → ts.Nodup →
        groupRels g f ty = [] →
        ∃ g', addSeq g f ts ty note = .ok g' ∧
          (groupRels g' f ty).map (·.weight) =
            (List.range ts.length).map Int.ofNat ∧
          (groupRels g' f ty).map (·.toId) = ts) := by
  refine ⟨fun g f t ty note hf ht => ⟨fun htr => ?_, fun htr => ⟨?_, ?_⟩⟩,
    fun g g1 f t ty note note2 hok => ?_,
    fun g f ts ty note hf hts hnd hempty => ?_⟩
  · rw [addRelation, if_pos ⟨hf, ht⟩, if_pos (by simp [htr])]
  · rw [addRelation, if_pos ⟨hf, ht⟩, if_neg (by simp [htr])]
  · rcases hg : groupRels g f ty with _ | ⟨r, rs⟩
    · exact Or.inl ⟨rfl, rfl⟩
    · exact Or.inr ⟨_, rfl, rfl⟩
  · by_cases hmem : f ∈ g.entries ∧ t ∈ g.entries
    · rw [addRelation, if_pos hmem] at hok
      by_cases htr : hasTriple g f t ty
      · rw [if_pos htr] at hok
        exact Except.noConfusion hok
      · rw [if_neg htr] at hok
        injection hok with h1
        subst h1
        rw [addRelation, if_pos ⟨hmem.1, hmem.2⟩,
          if_pos (by simp [hasTriple, List.any_append])]
    · rw [addRelation, if_neg hmem] at hok
      exact Except.noConfusion hok
  · obtain ⟨g', hseq, hwts, htos⟩ :=
      addSeq_ok f ty note ts g 0 hf hts hnd
        (fun t ht => by
          simp only [hasTriple, List.any_eq_false]
          intro r hr
          intro hcontr
          have : r ∈ groupRels g f ty := by
            simp only [groupRels, List.mem_filter]
            simp at hcontr
            exact ⟨hr, by simp [hcontr.1.1, hcontr.2]⟩
          rw [hempty] at this
          exact absurd this (List.not_mem_nil r))
        (by rw [hempty]; simp)
    exact ⟨g', hseq, by simpa using hwts, by rw [htos, hempty]; simp⟩

/-- Witness for C4: after adding relation (1,2,"synonym") to a graph, an
identical second `addRelation` fails with Conflict. -/
theorem addRelation_weight_spec_witness :
    addRelation (Graph.mk [1, 2, 3] [Relation.mk 0 1 2 "synonym" 0 ""] 1)
        1 2 "synonym" "" = .error DbErr.conflict :=
  addRelation_weight_spec.2.1 (Graph.mk [1, 2, 3] [] 0)
    (Graph.mk [1, 2, 3] [Relation.mk 0 1 2 "synonym" 0 ""] 1)
    1 2 "synonym" "" "" rfl

/-- C5: `reorderRelations` is all-or-nothing (on failure the graph is
unchanged); on success each relation of the entry named in the list gets
its 0-based position as its weight, and every relation not named in the
list (or belonging to another entry) is kept unchanged, weight included. -/
theorem reorderRelations_atomic (g : Graph) (guid : Nat) (ids : List Nat) :
    ((reorderRelations g guid ids).1.isSome →
      (reorderRelations g guid ids).2 = g)
    ∧ ((reorderRelations g guid ids).1 = none →
        (∀ r ∈ g.relations, ∀ n : Nat, r.fromId = guid →
          idxOf ids r.rid = some n →
          { r with weight := (n : Int) } ∈ (reorderRelations g guid ids).2.relations)
        ∧ (∀ r ∈ g.relations, (r.fromId ≠ guid ∨ idxOf ids r.rid = none) →
            r ∈ (reorderRelations g guid ids).2.relations)) := by
  by_cases hval :
    (ids.all (fun i => g.relations.any (fun r => r.rid = i && r.fromId = guid))) = true
  · rw [reorderRelations, if_pos hval]
    refine ⟨fun h => absurd h (by simp), fun _ => ⟨?_, ?_⟩⟩
    · intro r hr n hfrom hidx
      have : (fun r : Relation =>
          if r.fromId = guid then
            match idxOf ids r.rid with
            | some n => { r with weight := (n : Int) }
            | none => r
          else r) r = { r with weight := (n : Int) } := by
        simp [hfrom, hidx]
      exact this ▸ List.mem_map_of_mem _ hr
    · intro r hr hcase
      have : (fun r : Relation =>
          if r.fromId = guid then
            match idxOf ids r.rid with
            | some n => { r with weight := (n : Int) }
            | none => r
          else r) r = r := by
        rcases hcase with h1 | h1
        · simp [h1]
        · by_cases h2 : r.fromId = guid <;> simp [h1, h2]
      exact this ▸ List.mem_map_of_mem _ hr
  · rw [reorderRelations, if_neg hval]
    exact ⟨fun _ => rfl, fun h => absurd h (by simp)⟩

/-- Witness for C5: reordering two sibling relations `[11, 10]` gives the
relation with ID 10 the weight 1 (its 0-based position in the list). -/
theorem reorderRelations_atomic_witness :
    Relation.mk 10 1 2 "syn" 1 "" ∈
      (reorderRelations
        (Graph.mk [1, 2, 3]
          [Relation.mk 10 1 2 "syn" 0 "", Relation.mk 11 1 3 "syn" 1 ""] 12)
        1 [11, 10]).2.relations :=
  ((reorderRelations_atomic
      (Graph.mk [1, 2, 3]
        [Relation.mk 10 1 2 "syn" 0 "", Relation.mk 11 1 3 "syn" 1 ""] 12)
      1 [11, 10]).2 (by decide)).1
    (Relation.mk 10 1 2 "syn" 0 "") (by decide) 1 rfl (by decide)

end Dictmaker
